import Mathlib

/-!
Verification development for the calorigram meal-logging bot.

The Python sources (`bot_functions.py`, `database.py`) are shallowly embedded:
texts are `List Char`, the regex patterns used by the analysis-extraction
pipeline are encoded as deterministic scanners that are exact for the specific
pattern shapes occurring in the source (for these shapes the greedy strategy
never needs backtracking, except where noted and handled), numeric values are
rationals, timestamps are integers (SQLite datetime strings compare
monotonically with the instants they denote), and the SQLite store is an
explicit record of row lists.
-/

/-- Python `str.lower()` / `re.IGNORECASE` case folding, restricted to the
alphabets that occur in the embedded texts (ASCII and Cyrillic). -/
def lowerChar (c : Char) : Char :=
  if 'A' ≤ c ∧ c ≤ 'Z' then Char.ofNat (c.toNat + 32)
  else if 0x410 ≤ c.toNat ∧ c.toNat ≤ 0x42F then Char.ofNat (c.toNat + 0x20)
  else if c.toNat = 0x401 then Char.ofNat 0x451
  else c

/-- Python regex `\s` on the inputs in scope (ASCII whitespace). -/
def isWS (c : Char) : Bool :=
  c = ' ' || c = '\t' || c = '\n' || c = '\r' || c = '\x0b' || c = '\x0c'

/-- Python regex `\d` on the inputs in scope (the ASCII digits, written as an
explicit enumeration of the ten characters). -/
def isDigitCh (c : Char) : Bool :=
  c = '0' || c = '1' || c = '2' || c = '3' || c = '4' ||
  c = '5' || c = '6' || c = '7' || c = '8' || c = '9'

/-- `int()` on a captured digit run. -/
def digitsVal (ds : List Char) : Nat :=
  ds.foldl (fun a c => 10 * a + (c.toNat - 48)) 0

/-- Case-insensitive literal match at the head of the text; the literal is
stored lowercased.  Returns the remainder on success. -/
def matchLitCI : List Char → List Char → Option (List Char)
  | [], s => some s
  | _ :: _, [] => none
  | q :: qs, c :: cs => if lowerChar c = q then matchLitCI qs cs else none

/-- One calorie pattern of `extract_calories_from_analysis`: an optional
literal head, then `\s*(\d+)`, optionally `\s*ккал`, optionally `\s*$`
(with `re.MULTILINE`).  The leading `\s*` is present exactly when the literal
head is nonempty, as in the source patterns. -/
structure CalPat where
  lit : List Char
  unitAfter : Bool
  eolAnchor : Bool
deriving DecidableEq

/-- `\s*$` under `re.MULTILINE`: some whitespace run reaches the end of the
text or stops just before a newline. -/
def anchorOk (s : List Char) : Bool :=
  (s.dropWhile isWS).isEmpty || (s.takeWhile isWS).contains '\n'

/-- Attempt a `CalPat` at the current position; returns the captured number.
For these pattern shapes greedy scanning is exact (a shorter digit or
whitespace take can never rescue a failed continuation). -/
def matchAtP (p : CalPat) (s : List Char) : Option Nat :=
  match matchLitCI p.lit s with
  | none => none
  | some r0 =>
    let r1 := if p.lit.isEmpty then r0 else r0.dropWhile isWS
    let ds := r1.takeWhile isDigitCh
    if ds.isEmpty then none
    else
      let r2 := r1.dropWhile isDigitCh
      if p.unitAfter then
        match matchLitCI "ккал".data (r2.dropWhile isWS) with
        | none => none
        | some r3 =>
          if p.eolAnchor then
            if anchorOk r3 then some (digitsVal ds) else none
          else some (digitsVal ds)
      else some (digitsVal ds)

/-- `re.search`: leftmost position at which the pattern matches. -/
def searchPat (p : CalPat) : List Char → Option Nat
  | [] => none
  | c :: cs =>
    match matchAtP p (c :: cs) with
    | some n => some n
    | none => searchPat p cs

/-- The sanity guard `10 <= calories <= 10000`. -/
def rangeOK (n : Nat) : Bool :=
  10 ≤ n && n ≤ 10000

/-- One pass of the source's pattern loop: first pattern whose leftmost match
captures an in-range number wins; an out-of-range match abandons that pattern
(not the whole cascade). -/
def firstAccept : List CalPat → List Char → Option Nat
  | [], _ => none
  | p :: ps, s =>
    match searchPat p s with
    | some n => if rangeOK n then some n else firstAccept ps s
    | none => firstAccept ps s

/-- The primary pattern cascade of `extract_calories_from_analysis`
(`re.IGNORECASE | re.MULTILINE`), in source order. -/
def primaryPatterns : List CalPat :=
  [ ⟨"общая калорийность:".data, true, false⟩,
    ⟨"общее количество калорий:".data, true, false⟩,
    ⟨"калорийность блюда:".data, true, false⟩,
    ⟨"калорийность:".data, true, true⟩,
    ⟨[], true, true⟩,
    ⟨"калорийность:".data, false, false⟩,
    ⟨"калорий:".data, false, false⟩ ]

/-- The fallback cascade (`re.IGNORECASE`), in source order. -/
def fallbackPatterns : List CalPat :=
  [ ⟨[], true, false⟩,
    ⟨"калорийность:".data, false, false⟩,
    ⟨"калорий:".data, false, false⟩ ]

/-- `extract_calories_from_analysis`: primary cascade, then fallback cascade,
each under the `[10, 10000]` guard. -/
def extract_calories_from_analysis (s : List Char) : Option Nat :=
  match firstAccept primaryPatterns s with
  | some n => some n
  | none => firstAccept fallbackPatterns s

/-- `is_valid_analysis`: the extracted calorie figure exists and is positive. -/
def is_valid_analysis (s : List Char) : Bool :=
  match extract_calories_from_analysis s with
  | some n => decide (0 < n)
  | none => false

/-- The continuation `\s*([^\n]+)` of the dish-name pattern, with the exact
backtracking behaviour of the greedy `\s*`: the longest whitespace take whose
remainder starts with a character other than a newline wins; the capture is
the remainder of that line. -/
def dishCapture : List Char → Option (List Char)
  | [] => none
  | c :: cs =>
    if isWS c then
      match dishCapture cs with
      | some cap => some cap
      | none =>
        if c = '\n' then none
        else some ((c :: cs).takeWhile (fun d => d ≠ '\n'))
    else some ((c :: cs).takeWhile (fun d => d ≠ '\n'))

/-- Python `str.strip()`. -/
def stripWS (s : List Char) : List Char :=
  ((s.dropWhile isWS).reverse.dropWhile isWS).reverse

/-- Attempt `Название:\s*([^\n]+)` at the current position; the source returns
`match.group(1).strip()`. -/
def dishMatchAt (s : List Char) : Option (List Char) :=
  match matchLitCI "название:".data s with
  | none => none
  | some rest =>
    match dishCapture rest with
    | some cap => some (stripWS cap)
    | none => none

/-- Leftmost-position search for the dish-name pattern. -/
def dishSearch : List Char → Option (List Char)
  | [] => none
  | c :: cs =>
    match dishMatchAt (c :: cs) with
    | some cap => some cap
    | none => dishSearch cs

/-- `extract_dish_name_from_analysis` (`re.IGNORECASE`). -/
def extract_dish_name_from_analysis (s : List Char) : Option (List Char) :=
  dishSearch s

/-- Truncate the text at the leftmost case-insensitive occurrence of `lit`:
the effect of `re.sub(lit + '.*$', '', text, flags=re.DOTALL | re.IGNORECASE)`
for the nonempty literals used by the source (the match runs to the end of the
text, so removal keeps exactly the prefix before the occurrence). -/
def cutLit (lit : List Char) : List Char → List Char
  | [] => []
  | c :: cs =>
    if (matchLitCI lit (c :: cs)).isSome then []
    else c :: cutLit lit cs

/-- The ordered heading/phrase literals of `remove_explanations_from_analysis`,
lowercased. -/
def explanationLits : List (List Char) :=
  [ "### пояснение расчетов:".data,
    "## пояснение расчетов:".data,
    "# пояснение расчетов:".data,
    "пояснение расчетов:".data,
    "таким образом".data,
    "итак".data,
    "в итоге".data,
    "итого".data ]

/-- Sequential application of the eight `re.sub` removals. -/
def applyCuts : List (List Char) → List Char → List Char
  | [], s => s
  | l :: ls, s => applyCuts ls (cutLit l s)

/-- Python `str.rstrip('\n')`. -/
def rstripNl (s : List Char) : List Char :=
  (s.reverse.dropWhile (fun c => c = '\n')).reverse

/-- `remove_explanations_from_analysis`. -/
def remove_explanations_from_analysis (s : List Char) : List Char :=
  rstripNl (applyCuts explanationLits s)

/-- One rule of `parse_quantity_from_description`: literal segments separated
by `\s*` (also between the number and the first segment), whether the number
may carry a decimal part (`(\d+(?:\.\d+)?)` vs `(\d+)`), the conversion factor
to the canonical unit, and the canonical unit.  Numeric values are modelled as
rationals (the source uses Python floats; all claimed values are integral). -/
structure QtyPat where
  segs : List (List Char)
  allowFrac : Bool
  factor : Nat
  unit : String

/-- Match the `\s*`-separated literal segments (case-sensitive: the input was
already lowercased by the caller). -/
def matchSegs : List (List Char) → List Char → Bool
  | [], _ => true
  | seg :: rest, s =>
    match matchLitCI seg (s.dropWhile isWS) with
    | some r => matchSegs rest r
    | none => false

/-- The converted value `float(captured) * factor`, as a rational:
`(intpart + fracpart / 10^k) * factor` written as one integer quotient so the
kernel can evaluate it. -/
def qtyVal (ip fp : List Char) (factor : Nat) : ℚ :=
  Rat.divInt ((digitsVal ip * 10 ^ fp.length + digitsVal fp) * factor) (10 ^ fp.length)

/-- Attempt a quantity rule at the current position.  The optional-fraction
group is greedy with one backtracking alternative (group not taken), which is
tried exactly when taking the fraction makes the continuation fail. -/
def matchQtyAt (p : QtyPat) (s : List Char) : Option ℚ :=
  let ip := s.takeWhile isDigitCh
  if ip.isEmpty then none
  else
    let rest := s.dropWhile isDigitCh
    let noFrac : Option ℚ :=
      if matchSegs p.segs rest then some (qtyVal ip [] p.factor) else none
    if p.allowFrac then
      match rest with
      | '.' :: r2 =>
        let fp := r2.takeWhile isDigitCh
        if fp.isEmpty then noFrac
        else if matchSegs p.segs (r2.dropWhile isDigitCh) then
          some (qtyVal ip fp p.factor)
        else noFrac
      | _ => noFrac
    else noFrac

/-- Leftmost-position search for a quantity rule. -/
def searchQty (p : QtyPat) : List Char → Option ℚ
  | [] => none
  | c :: cs =>
    match matchQtyAt p (c :: cs) with
    | some v => some v
    | none => searchQty p cs

/-- The ordered rule table of `parse_quantity_from_description`. -/
def quantityPatterns : List QtyPat :=
  [ ⟨["кг".data], true, 1000, "г"⟩,
    ⟨["килограмм".data], true, 1000, "г"⟩,
    ⟨["kg".data], true, 1000, "г"⟩,
    ⟨["г".data], true, 1, "г"⟩,
    ⟨["грамм".data], true, 1, "г"⟩,
    ⟨["g".data], true, 1, "г"⟩,
    ⟨["л".data], true, 1000, "мл"⟩,
    ⟨["литр".data], true, 1000, "мл"⟩,
    ⟨["l".data], true, 1000, "мл"⟩,
    ⟨["мл".data], true, 1, "мл"⟩,
    ⟨["миллилитр".data], true, 1, "мл"⟩,
    ⟨["ml".data], true, 1, "мл"⟩,
    ⟨["шт".data], false, 100, "г"⟩,
    ⟨["штук".data], false, 100, "г"⟩,
    ⟨["штуки".data], false, 100, "г"⟩,
    ⟨["pc".data], false, 100, "г"⟩,
    ⟨["порц".data], false, 200, "г"⟩,
    ⟨["порции".data], false, 200, "г"⟩,
    ⟨["порция".data], false, 200, "г"⟩,
    ⟨["стакан".data], false, 250, "г"⟩,
    ⟨["стакана".data], false, 250, "г"⟩,
    ⟨["стаканов".data], false, 250, "г"⟩,
    ⟨["ст.".data, "л.".data], false, 15, "г"⟩,
    ⟨["столовых ложек".data], false, 15, "г"⟩,
    ⟨["столовые ложки".data], false, 15, "г"⟩,
    ⟨["ч.".data, "л.".data], false, 5, "г"⟩,
    ⟨["чайных ложек".data], false, 5, "г"⟩,
    ⟨["чайные ложки".data], false, 5, "г"⟩ ]

/-- First rule (in declaration order) whose search succeeds. -/
def firstQty : List QtyPat → List Char → Option (ℚ × String)
  | [], _ => none
  | p :: ps, s =>
    match searchQty p s with
    | some v => some (v, p.unit)
    | none => firstQty ps s

/-- `parse_quantity_from_description`: lowercase and strip the input, evaluate
the ordered rule table, default to 100 g. -/
def parse_quantity_from_description (s : List Char) : ℚ × String :=
  let t := stripWS (s.map lowerChar)
  match firstQty quantityPatterns t with
  | some v => v
  | none => (100, "г")

/-- A row of the `users` table (the registration attributes are irrelevant to
the claims and omitted).  Timestamps are integers; SQLite datetime strings in
one format compare identically to the instants they denote. -/
structure UserRow where
  telegram_id : Int
  subscription_type : String
  subscription_expires_at : Option Int
  is_premium : Bool
  created_at : Int
deriving DecidableEq

/-- A row of the `meals` table. -/
structure MealRow where
  telegram_id : Int
  meal_type : String
  meal_name : String
  dish_name : List Char
  calories : Nat
  analysis_type : String
  created_day : Int
deriving DecidableEq

/-- A row of the `calorie_checks` table. -/
structure CheckRow where
  telegram_id : Int
  check_type : String
  created_day : Int
deriving DecidableEq

/-- The SQLite store. -/
structure DB where
  users : List UserRow
  meals : List MealRow
  checks : List CheckRow
deriving DecidableEq

/-- Seconds in the SQLite modifier `'+1 day'` / `'-1 day'`. -/
def oneDay : Int := 86400

/-- Result dict of `check_user_subscription`. -/
structure SubStatus where
  is_active : Bool
  type : String
  expires_at : Option Int
deriving DecidableEq

/-- `SELECT ... FROM users WHERE telegram_id = ?` followed by `fetchone()`. -/
def findUser (db : DB) (tid : Int) : Option UserRow :=
  db.users.find? (fun u => u.telegram_id = tid)

/-- An `UPDATE users SET ... WHERE telegram_id = ?`. -/
def updateUser (db : DB) (tid : Int) (f : UserRow → UserRow) : DB :=
  { db with
    users := db.users.map (fun u => if u.telegram_id = tid then f u else u) }

/-- The `UPDATE users SET subscription_expires_at = datetime(created_at, '+1 day')`
performed lazily by `check_user_subscription` for a trial row with no expiry. -/
def setTrialExpiry (db : DB) (tid : Int) : DB :=
  updateUser db tid (fun u =>
    { u with subscription_expires_at := some (u.created_at + oneDay) })

/-- `check_user_subscription` on an open connection; `now` is `datetime('now')`.
Expiry is checked with the strict comparison `datetime('now') > expires_at`. -/
def check_user_subscription_conn (now : Int) (db : DB) (tid : Int) : SubStatus × DB :=
  match findUser db tid with
  | none => (⟨false, "none", none⟩, db)
  | some u =>
    if u.subscription_type = "trial" then
      match u.subscription_expires_at with
      | some e =>
        if now > e then (⟨false, "trial_expired", some e⟩, db)
        else (⟨true, "trial", some e⟩, db)
      | none =>
        (⟨true, "trial", some (u.created_at + oneDay)⟩, setTrialExpiry db tid)
    else if u.subscription_type = "premium" && u.is_premium then
      match u.subscription_expires_at with
      | some e =>
        if now > e then (⟨false, "premium_expired", some e⟩, db)
        else (⟨true, "premium", some e⟩, db)
      | none => (⟨true, "premium", none⟩, db)
    else (⟨false, "none", none⟩, db)

/-- `check_user_subscription` with its `except` clause: a connection value of
`none` models the database layer raising, which yields the `'error'` dict. -/
def check_user_subscription (now : Int) (conn : Option DB) (tid : Int) :
    SubStatus × Option DB :=
  match conn with
  | none => (⟨false, "error", none⟩, none)
  | some db =>
    let r := check_user_subscription_conn now db tid
    (r.1, some r.2)

/-- Result dict of `check_subscription_access`. -/
structure AccessInfo where
  has_access : Bool
  subscription_type : String
  expires_at : Option Int
deriving DecidableEq

/-- `check_subscription_access`: both branches copy the subscription fields,
differing only in the flag name. -/
def check_subscription_access (now : Int) (conn : Option DB) (tid : Int) :
    AccessInfo × Option DB :=
  let r := check_user_subscription now conn tid
  if r.1.is_active then
    (⟨true, r.1.type, r.1.expires_at⟩, r.2)
  else
    (⟨false, r.1.type, r.1.expires_at⟩, r.2)

/-- `get_daily_calorie_checks_count`: `COUNT(*)` of today's check rows; the
`except` clause turns a raising connection into 0. -/
def get_daily_calorie_checks_count (today : Int) (conn : Option DB) (tid : Int) : Nat :=
  match conn with
  | none => 0
  | some db =>
    (db.checks.filter (fun c => c.telegram_id = tid && c.created_day = today)).length

/-- `add_calorie_check` (success path). -/
def add_calorie_check (today : Int) (db : DB) (tid : Int) (check_type : String) : DB :=
  { db with checks := db.checks ++ [⟨tid, check_type, today⟩] }

/-- `add_meal`: an unconditional `INSERT` into `meals`.  A missing calorie
figure violates the `NOT NULL` constraint, which the `except` clause turns
into `False`. -/
def add_meal (today : Int) (db : DB) (tid : Int) (meal_type meal_name : String)
    (dish_name : List Char) (calories : Option Nat) (analysis_type : String) :
    Bool × DB :=
  match calories with
  | none => (false, db)
  | some c =>
    (true, { db with meals := db.meals ++ [⟨tid, meal_type, meal_name, dish_name, c, analysis_type, today⟩] })

/-- `is_meal_already_added`: a matching meal row dated today exists. -/
def is_meal_already_added (today : Int) (db : DB) (tid : Int) (meal_type : String) : Bool :=
  0 < (db.meals.filter (fun m =>
    m.telegram_id = tid && m.meal_type = meal_type && m.created_day = today)).length

/-- The per-user `context.user_data` flags and selections used by the
meal-logging and quick-check flows (`dict.get` defaults become `Option`/`false`). -/
structure UserData where
  waiting_for_photo : Bool := false
  waiting_for_check_photo : Bool := false
  waiting_for_text : Bool := false
  waiting_for_check_text : Bool := false
  waiting_for_voice : Bool := false
  waiting_for_check_voice : Bool := false
  check_mode : Bool := false
  selected_meal : Option String := none
  selected_meal_name : Option String := none
deriving DecidableEq

/-- The slot-button labels of `handle_meal_selection`. -/
def mealTypeName (data : String) : String :=
  if data = "meal_breakfast" then "🌅 Завтрак"
  else if data = "meal_lunch" then "☀️ Обед"
  else if data = "meal_dinner" then "🌙 Ужин"
  else if data = "meal_snack" then "🍎 Перекус"
  else "Прием пищи"

/-- `handle_meal_selection`: record the chosen slot in the session. -/
def handle_meal_selection (data : String) (ud : UserData) : UserData :=
  { ud with selected_meal := some data, selected_meal_name := some (mealTypeName data) }

/-- `/addphoto`: for a registered user, only sets the waiting-for-photo flag;
no slot is selected. -/
def addphoto_command (registered : Bool) (ud : UserData) : UserData :=
  if registered then { ud with waiting_for_photo := true } else ud

/-- `/addtext`. -/
def addtext_command (registered : Bool) (ud : UserData) : UserData :=
  if registered then { ud with waiting_for_text := true } else ud

/-- `/addvoice`. -/
def addvoice_command (registered : Bool) (ud : UserData) : UserData :=
  if registered then { ud with waiting_for_voice := true } else ud

/-- Response directive of `handle_add_dish`: either the subscription-required
message or the slot menu (callback identifiers of the offered buttons). -/
inductive AddDishReply
  | subRequired
  | menu (slots : List String)
deriving DecidableEq

/-- `handle_add_dish`: after the access gate, offer breakfast/lunch/dinner only
when not yet logged today; snack and the back button unconditionally. -/
def handle_add_dish (now today : Int) (conn : Option DB) (tid : Int) : AddDishReply :=
  let access := (check_subscription_access now conn tid).1
  if !access.has_access then .subRequired
  else
    match conn with
    | none => .menu ["meal_snack", "menu"]
    | some db =>
      let breakfast_added := is_meal_already_added today db tid "meal_breakfast"
      let lunch_added := is_meal_already_added today db tid "meal_lunch"
      let dinner_added := is_meal_already_added today db tid "meal_dinner"
      .menu ((if !breakfast_added then ["meal_breakfast"] else []) ++
             (if !lunch_added then ["meal_lunch"] else []) ++
             (if !dinner_added then ["meal_dinner"] else []) ++
             ["meal_snack", "menu"])

/-- Outcome directive of the media/text analysis handlers. -/
inductive AnalysisOutcome
  | ignored
  | checkShown (analysis : List Char)
  | saved
  | saveFailed
  | analysisFailed
  | apiError
  | transcriptionFailed
deriving DecidableEq

/-- `handle_photo`, from the point where the external analysis result is in
hand (`analysisResult = none` models a failed inference call). -/
def handle_photo (today : Int) (ud : UserData) (db : DB) (tid : Int)
    (analysisResult : Option (List Char)) : AnalysisOutcome × UserData × DB :=
  let is_for_adding := ud.waiting_for_photo
  let is_for_checking := ud.waiting_for_check_photo
  if !(is_for_adding || is_for_checking) then (.ignored, ud, db)
  else
    let ud := { ud with waiting_for_photo := false, waiting_for_check_photo := false }
    let selected_meal := ud.selected_meal_name.getD "Прием пищи"
    match analysisResult with
    | some raw =>
      if is_valid_analysis raw then
        let cleaned := remove_explanations_from_analysis raw
        let calories := extract_calories_from_analysis cleaned
        let dish_name :=
          match extract_dish_name_from_analysis cleaned with
          | some d => if d.isEmpty then "Блюдо по фото".data else d
          | none => "Блюдо по фото".data
        if ud.check_mode then
          let db := add_calorie_check today db tid "photo"
          (.checkShown cleaned, { ud with check_mode := false }, db)
        else
          let meal_type := ud.selected_meal.getD "meal_breakfast"
          match add_meal today db tid meal_type selected_meal dish_name calories "photo" with
          | (true, db2) => (.saved, ud, db2)
          | (false, db2) => (.saveFailed, ud, db2)
      else (.analysisFailed, ud, db)
    | none => (.apiError, ud, db)

/-- `handle_food_text_analysis` (reached when `waiting_for_text` or
`waiting_for_check_text` is set), from the point where the analysis result is
in hand. -/
def handle_food_text_analysis (today : Int) (ud : UserData) (db : DB) (tid : Int)
    (description : List Char) (analysisResult : Option (List Char)) :
    AnalysisOutcome × UserData × DB :=
  let ud := { ud with waiting_for_text := false, waiting_for_check_text := false }
  match analysisResult with
  | some raw =>
    if is_valid_analysis raw then
      let cleaned := remove_explanations_from_analysis raw
      let calories := extract_calories_from_analysis cleaned
      let dish_name :=
        match extract_dish_name_from_analysis cleaned with
        | some d => if d.isEmpty then description.take 50 else d
        | none => description.take 50
      if ud.check_mode then
        let db := add_calorie_check today db tid "text"
        (.checkShown cleaned, { ud with check_mode := false }, db)
      else
        let meal_type := ud.selected_meal.getD "meal_breakfast"
        let selected_meal := ud.selected_meal_name.getD "Прием пищи"
        match add_meal today db tid meal_type selected_meal dish_name calories "text" with
        | (true, db2) => (.saved, ud, db2)
        | (false, db2) => (.saveFailed, ud, db2)
    else (.analysisFailed, ud, db)
  | none => (.apiError, ud, db)

/-- `handle_voice`, from the point where transcription and analysis results
are in hand; a failed transcription is terminal for the attempt. -/
def handle_voice (today : Int) (ud : UserData) (db : DB) (tid : Int)
    (transcription : Option (List Char)) (analysisResult : Option (List Char)) :
    AnalysisOutcome × UserData × DB :=
  let is_for_adding := ud.waiting_for_voice
  let is_for_checking := ud.waiting_for_check_voice
  if !(is_for_adding || is_for_checking) then (.ignored, ud, db)
  else
    let ud := { ud with waiting_for_voice := false, waiting_for_check_voice := false }
    match transcription with
    | none => (.transcriptionFailed, ud, db)
    | some txt =>
      match analysisResult with
      | some raw =>
        if is_valid_analysis raw then
          let cleaned := remove_explanations_from_analysis raw
          let calories := extract_calories_from_analysis cleaned
          let dish_name :=
            match extract_dish_name_from_analysis cleaned with
            | some d => if d.isEmpty then txt.take 50 else d
            | none => txt.take 50
          if ud.check_mode then
            let db := add_calorie_check today db tid "voice"
            (.checkShown cleaned, { ud with check_mode := false }, db)
          else
            let meal_type := ud.selected_meal.getD "meal_breakfast"
            let selected_meal := ud.selected_meal_name.getD "Прием пищи"
            match add_meal today db tid meal_type selected_meal dish_name calories "voice" with
            | (true, db2) => (.saved, ud, db2)
            | (false, db2) => (.saveFailed, ud, db2)
        else (.analysisFailed, ud, db)
      | none => (.apiError, ud, db)

/-- Decision of a quick-check entry point's quota gate. -/
inductive GateDecision
  | denyQuota
  | proceed
deriving DecidableEq

/-- The quota gate of `handle_check_calories` (for a registered user): without
an active subscription, three or more checks today are refused. -/
def handle_check_calories_gate (now today : Int) (conn : Option DB) (tid : Int) :
    GateDecision :=
  let r := check_subscription_access now conn tid
  if !r.1.has_access then
    if get_daily_calorie_checks_count today r.2 tid ≥ 3 then .denyQuota else .proceed
  else .proceed

/-- The identical quota gate of `handle_check_photo_callback`. -/
def handle_check_photo_callback_gate (now today : Int) (conn : Option DB) (tid : Int) :
    GateDecision :=
  let r := check_subscription_access now conn tid
  if !r.1.has_access then
    if get_daily_calorie_checks_count today r.2 tid ≥ 3 then .denyQuota else .proceed
  else .proceed

/-- The identical quota gate of `handle_check_text_callback`. -/
def handle_check_text_callback_gate (now today : Int) (conn : Option DB) (tid : Int) :
    GateDecision :=
  let r := check_subscription_access now conn tid
  if !r.1.has_access then
    if get_daily_calorie_checks_count today r.2 tid ≥ 3 then .denyQuota else .proceed
  else .proceed

/-- The identical quota gate of `handle_check_voice_callback`. -/
def handle_check_voice_callback_gate (now today : Int) (conn : Option DB) (tid : Int) :
    GateDecision :=
  let r := check_subscription_access now conn tid
  if !r.1.has_access then
    if get_daily_calorie_checks_count today r.2 tid ≥ 3 then .denyQuota else .proceed
  else .proceed

/-- `activate_premium_subscription`: premium tier, premium flag, expiry `days`
ahead of now. -/
def activate_premium_subscription (now : Int) (db : DB) (tid : Int) (days : Nat) : DB :=
  updateUser db tid (fun u =>
    { u with
      subscription_type := "premium",
      is_premium := true,
      subscription_expires_at := some (now + days * oneDay) })

/-- The `UPDATE` of `handle_admin_deactivate_subscription_callback`: tier
literally set to `'trial_expired'`, premium flag cleared, expiry one day in
the past; the row is kept. -/
def handle_admin_deactivate_subscription_callback (now : Int) (db : DB) (tid : Int) : DB :=
  updateUser db tid (fun u =>
    { u with
      subscription_type := "trial_expired",
      is_premium := false,
      subscription_expires_at := some (now - oneDay) })

/-- A store with one trial user whose expiry is exactly the chosen instant. -/
def dbTrialNow : DB :=
  ⟨[⟨7, "trial", some 100, false, 0⟩], [], []⟩

/-- A store with one premium user with a distant expiry. -/
def dbPremiumU : DB :=
  ⟨[⟨7, "premium", some 5000000, true, 0⟩], [], []⟩

/-- A store with no profile for user 7 and three quick-check events today. -/
def dbQuota3 : DB :=
  ⟨[], [], [⟨7, "photo", 0⟩, ⟨7, "text", 0⟩, ⟨7, "voice", 0⟩]⟩

/-- A store with no profile for user 7 and two quick-check events today. -/
def dbQuota2 : DB :=
  ⟨[], [], [⟨7, "photo", 0⟩, ⟨7, "text", 0⟩]⟩











/-- A well-formed analysis text as produced by the inference prompt. -/
def analysisBorsch : List Char :=
  "Название: Борщ\nОбщая калорийность: 250 ккал".data

/-- A fresh session: no flags, no slot selection. -/
def freshUD : UserData := {}

/-- Number of stored meal rows for a user, slot and day (the quantity the
slot invariant bounds). -/
def mealSlotCount (today : Int) (db : DB) (tid : Int) (slot : String) : Nat :=
  (db.meals.filter (fun m =>
    m.telegram_id = tid && m.meal_type = slot && m.created_day = today)).length

/-- First direct `/addphoto` flow of the C2 scenario, from an empty store. -/
def c2Step1 : AnalysisOutcome × UserData × DB :=
  handle_photo 0 (addphoto_command true freshUD) ⟨[], [], []⟩ 7 (some analysisBorsch)

/-- Second direct `/addphoto` flow of the C2 scenario, on the resulting state. -/
def c2Step2 : AnalysisOutcome × UserData × DB :=
  handle_photo 0 (addphoto_command true c2Step1.2.1) c2Step1.2.2 7 (some analysisBorsch)


/-- The claimed C5 text family: a total-dish phrase around an arbitrary digit
run (association to the right so that concrete heads normalise by reduction). -/
def tC5 (ds : List Char) : List Char :=
  "Общая калорийность: ".data ++ (ds ++ " ккал".data)

/-- The claimed C6 text family: a labeled total-dish phrase with one number
followed by a bare trailing number with the calorie unit. -/
def tC6 (ds1 ds2 : List Char) : List Char :=
  "Общая калорийность: ".data ++ (ds1 ++ (" ккал\n".data ++ (ds2 ++ " ккал".data)))

/-- First character a pattern match at a position would have to consume: the
literal head for labeled patterns, a digit for the bare ones. -/
def canStart (p : CalPat) (c : Char) : Bool :=
  match p.lit with
  | q :: _ => lowerChar c == q
  | [] => isDigitCh c


theorem findUser_updateUser (db : DB) (tid : Int) (f : UserRow → UserRow)
    (hf : ∀ u, (f u).telegram_id = u.telegram_id) :
    findUser (updateUser db tid f) tid = Option.map f (findUser db tid) := by
  show (db.users.map _).find? _ = Option.map f (db.users.find? _)
  induction db.users with
  | nil => rfl
  | cons x xs ih =>
    by_cases hx : x.telegram_id = tid
    · simp [List.find?, hx, hf]
    · simp [List.find?, hx, ih]

theorem firstQty_unit (ps : List QtyPat) (s : List Char) (v : ℚ) (u : String)
    (h : firstQty ps s = some (v, u)) : ∃ p ∈ ps, p.unit = u := by
  induction ps with
  | nil => simp [firstQty] at h
  | cons p ps ih =>
    rw [firstQty] at h
    cases hs : searchQty p s with
    | some w =>
      rw [hs] at h
      exact ⟨p, List.mem_cons_self .., congrArg Prod.snd (Option.some_injective _ h)⟩
    | none =>
      rw [hs] at h
      obtain ⟨q, hq, hu⟩ := ih h
      exact ⟨q, List.mem_cons_of_mem _ hq, hu⟩

/-- C1 counterexample: with a trial user whose expiry equals the current
instant, `check_user_subscription` reports an active `trial`, not
`trial_expired` as the claim states. -/
theorem c1_counterexample :
    (check_user_subscription 100 (some dbTrialNow) 7).1.is_active = true ∧
    (check_user_subscription 100 (some dbTrialNow) 7).1.type = "trial" ∧
    (check_user_subscription 100 (some dbTrialNow) 7).1.type ≠ "trial_expired" := by
  decide

/-- C1 (amended): for a trial user with a recorded expiry, the boundary is
closed on the active side: when now ≤ expiry (equality included) the check
reports an active `trial`; `trial_expired` is reported exactly when now is
strictly past the expiry. -/
theorem c1_trial_boundary (now e : Int) (db : DB) (tid : Int) (u : UserRow)
    (hu : findUser db tid = some u)
    (ht : u.subscription_type = "trial")
    (he : u.subscription_expires_at = some e) :
    (now ≤ e →
      (check_user_subscription now (some db) tid).1 = ⟨true, "trial", some e⟩ ∧
      (check_subscription_access now (some db) tid).1.has_access = true) ∧
    (e < now →
      (check_user_subscription now (some db) tid).1 = ⟨false, "trial_expired", some e⟩ ∧
      (check_subscription_access now (some db) tid).1.has_access = false) := by
  constructor
  · intro h
    have hgt : ¬ (now > e) := by omega
    simp [check_user_subscription, check_user_subscription_conn,
      check_subscription_access, hu, ht, he, hgt]
  · intro h
    have hgt : now > e := by omega
    simp [check_user_subscription, check_user_subscription_conn,
      check_subscription_access, hu, ht, he, hgt]

/-- Witness for C1 at a concrete store: exact equality keeps the trial active,
one second later it is expired. -/
theorem c1_trial_boundary_witness :
    (check_user_subscription 100 (some dbTrialNow) 7).1 = ⟨true, "trial", some 100⟩ ∧
    (check_user_subscription 101 (some dbTrialNow) 7).1 = ⟨false, "trial_expired", some 100⟩ :=
  ⟨((c1_trial_boundary 100 100 dbTrialNow 7 ⟨7, "trial", some 100, false, 0⟩
      (by decide) rfl rfl).1 (by decide)).1,
   ((c1_trial_boundary 101 100 dbTrialNow 7 ⟨7, "trial", some 100, false, 0⟩
      (by decide) rfl rfl).2 (by decide)).1⟩

/-- C4 counterexample: after administrative deactivation of a premium user the
access check reports the inactive type `none`, not `trial_expired` or
`premium_expired` as the claim states. -/
theorem c4_counterexample :
    (check_user_subscription 0
        (some (handle_admin_deactivate_subscription_callback 0 dbPremiumU 7)) 7).1.is_active
      = false ∧
    (check_user_subscription 0
        (some (handle_admin_deactivate_subscription_callback 0 dbPremiumU 7)) 7).1.type
      = "none" ∧
    (check_user_subscription 0
        (some (handle_admin_deactivate_subscription_callback 0 dbPremiumU 7)) 7).1.type
      ≠ "trial_expired" ∧
    (check_user_subscription 0
        (some (handle_admin_deactivate_subscription_callback 0 dbPremiumU 7)) 7).1.type
      ≠ "premium_expired" := by
  decide

/-- C4 (amended): administrative deactivation keeps the profile row, clears
the premium flag, sets the expiry one day into the past and the stored tier to
the literal `trial_expired`; a subsequent access check then reports the
inactive status `none` (the stored tier matches neither recognised branch),
never an active subscription. -/
theorem c4_deactivation (now now2 : Int) (db : DB) (tid : Int) (u : UserRow)
    (hu : findUser db tid = some u) :
    (handle_admin_deactivate_subscription_callback now db tid).users.length
      = db.users.length ∧
    (∃ u2,
      findUser (handle_admin_deactivate_subscription_callback now db tid) tid = some u2 ∧
      u2.is_premium = false ∧
      u2.subscription_expires_at = some (now - oneDay) ∧
      u2.subscription_type = "trial_expired") ∧
    (check_user_subscription now2
        (some (handle_admin_deactivate_subscription_callback now db tid)) tid).1
      = ⟨false, "none", none⟩ := by
  have hfind :
      findUser (handle_admin_deactivate_subscription_callback now db tid) tid
        = some { u with
            subscription_type := "trial_expired",
            is_premium := false,
            subscription_expires_at := some (now - oneDay) } := by
    have h2 := findUser_updateUser db tid
      (fun v => { v with
        subscription_type := "trial_expired",
        is_premium := false,
        subscription_expires_at := some (now - oneDay) }) (fun _ => rfl)
    rw [hu] at h2
    exact h2
  refine ⟨by simp [handle_admin_deactivate_subscription_callback, updateUser], ?_, ?_⟩
  · exact ⟨_, hfind, rfl, rfl, rfl⟩
  · simp [check_user_subscription, check_user_subscription_conn, hfind]

/-- Witness for C4 at a concrete store. -/
theorem c4_deactivation_witness :
    (handle_admin_deactivate_subscription_callback 0 dbPremiumU 7).users.length
      = dbPremiumU.users.length ∧
    (check_user_subscription 0
        (some (handle_admin_deactivate_subscription_callback 0 dbPremiumU 7)) 7).1
      = ⟨false, "none", none⟩ :=
  ⟨(c4_deactivation 0 0 dbPremiumU 7 ⟨7, "premium", some 5000000, true, 0⟩ (by decide)).1,
   (c4_deactivation 0 0 dbPremiumU 7 ⟨7, "premium", some 5000000, true, 0⟩ (by decide)).2.2⟩

/-- C10: the access gate fails closed.  A raising storage layer yields
`has_access = false` with type `error`; a missing profile row yields
`has_access = false` with type `none`; access is never granted when the
storage layer failed. -/
theorem c10_fail_closed :
    (∀ now tid, (check_subscription_access now none tid).1
        = ⟨false, "error", none⟩) ∧
    (∀ now db tid, findUser db tid = none →
      (check_subscription_access now (some db) tid).1 = ⟨false, "none", none⟩) ∧
    (∀ now conn tid, (check_subscription_access now conn tid).1.has_access = true →
      conn ≠ none) := by
  refine ⟨fun now tid => rfl, ?_, ?_⟩
  · intro now db tid hnone
    simp [check_subscription_access, check_user_subscription,
      check_user_subscription_conn, hnone]
  · intro now conn tid h hc
    subst hc
    simp [check_subscription_access, check_user_subscription] at h

/-- Witness for C10 at concrete inputs. -/
theorem c10_fail_closed_witness :
    (check_subscription_access 0 none 7).1 = ⟨false, "error", none⟩ ∧
    (check_subscription_access 0 (some dbQuota3) 7).1 = ⟨false, "none", none⟩ :=
  ⟨c10_fail_closed.1 0 7, c10_fail_closed.2.1 0 dbQuota3 7 (by decide)⟩

/-- C3: for a user without an active subscription, every quick-check entry
point (the menu handler and the photo/text/voice callbacks) denies the request
when three or more usage events are dated today, and proceeds when at most two
are. -/
theorem c3_quick_check_quota (now today : Int) (conn : Option DB) (tid : Int)
    (hacc : (check_subscription_access now conn tid).1.has_access = false) :
    (get_daily_calorie_checks_count today (check_subscription_access now conn tid).2 tid ≥ 3 →
      handle_check_calories_gate now today conn tid = .denyQuota ∧
      handle_check_photo_callback_gate now today conn tid = .denyQuota ∧
      handle_check_text_callback_gate now today conn tid = .denyQuota ∧
      handle_check_voice_callback_gate now today conn tid = .denyQuota) ∧
    (get_daily_calorie_checks_count today (check_subscription_access now conn tid).2 tid ≤ 2 →
      handle_check_calories_gate now today conn tid = .proceed ∧
      handle_check_photo_callback_gate now today conn tid = .proceed ∧
      handle_check_text_callback_gate now today conn tid = .proceed ∧
      handle_check_voice_callback_gate now today conn tid = .proceed) := by
  constructor
  · intro hcnt
    refine ⟨?_, ?_, ?_, ?_⟩ <;>
      simp [handle_check_calories_gate, handle_check_photo_callback_gate,
        handle_check_text_callback_gate, handle_check_voice_callback_gate,
        hacc, hcnt]
  · intro hcnt
    have hlt : ¬ (get_daily_calorie_checks_count today
        (check_subscription_access now conn tid).2 tid ≥ 3) := by omega
    refine ⟨?_, ?_, ?_, ?_⟩ <;>
      simp [handle_check_calories_gate, handle_check_photo_callback_gate,
        handle_check_text_callback_gate, handle_check_voice_callback_gate,
        hacc, hlt]

/-- Witness for C3 at concrete stores: three events deny, two allow. -/
theorem c3_quick_check_quota_witness :
    (handle_check_calories_gate 0 0 (some dbQuota3) 7 = .denyQuota ∧
     handle_check_photo_callback_gate 0 0 (some dbQuota3) 7 = .denyQuota ∧
     handle_check_text_callback_gate 0 0 (some dbQuota3) 7 = .denyQuota ∧
     handle_check_voice_callback_gate 0 0 (some dbQuota3) 7 = .denyQuota) ∧
    (handle_check_calories_gate 0 0 (some dbQuota2) 7 = .proceed ∧
     handle_check_photo_callback_gate 0 0 (some dbQuota2) 7 = .proceed ∧
     handle_check_text_callback_gate 0 0 (some dbQuota2) 7 = .proceed ∧
     handle_check_voice_callback_gate 0 0 (some dbQuota2) 7 = .proceed) :=
  ⟨(c3_quick_check_quota 0 0 (some dbQuota3) 7 (by decide)).1 (by decide),
   (c3_quick_check_quota 0 0 (some dbQuota2) 7 (by decide)).2 (by decide)⟩

/-- C7: `parse_quantity_from_description` is total with the claimed values on
the claimed inputs, and every result (matched rule or the 100 g default)
carries one of the two canonical units. -/
theorem c7_parse_quantity :
    parse_quantity_from_description "2 кг".data = (2000, "г") ∧
    parse_quantity_from_description "500 мл".data = (500, "мл") ∧
    parse_quantity_from_description "3 шт".data = (300, "г") ∧
    parse_quantity_from_description "asdf".data = (100, "г") ∧
    ∀ s : List Char,
      (parse_quantity_from_description s).2 = "г" ∨
      (parse_quantity_from_description s).2 = "мл" := by
  refine ⟨by decide, by decide, by decide, by decide, ?_⟩
  intro s
  rw [parse_quantity_from_description]
  cases h : firstQty quantityPatterns (stripWS (s.map lowerChar)) with
  | none => left; rfl
  | some r =>
    obtain ⟨v, u⟩ := r
    obtain ⟨p, hp, hu⟩ := firstQty_unit _ _ _ _ h
    have hunits : ∀ q ∈ quantityPatterns, q.unit = "г" ∨ q.unit = "мл" := by decide
    rcases hunits p hp with h1 | h1
    · left; simp [← hu, ← h1]
    · right; simp [← hu, ← h1]

/-- `a` is an initial segment of `b`. -/
def PrefixOf (a b : List Char) : Prop := ∃ t, a ++ t = b

theorem prefixOf_refl (a : List Char) : PrefixOf a a := ⟨[], List.append_nil a⟩

theorem prefixOf_trans {a b c : List Char} (h1 : PrefixOf a b) (h2 : PrefixOf b c) :
    PrefixOf a c := by
  obtain ⟨t1, rfl⟩ := h1
  obtain ⟨t2, rfl⟩ := h2
  exact ⟨t1 ++ t2, (List.append_assoc ..).symm⟩

theorem matchLitCI_isSome_append (lit : List Char) :
    ∀ s t, (matchLitCI lit s).isSome = true → (matchLitCI lit (s ++ t)).isSome = true := by
  induction lit with
  | nil => intro s t _; simp [matchLitCI]
  | cons q qs ih =>
    intro s t h
    cases s with
    | nil => simp [matchLitCI] at h
    | cons c cs =>
      rw [List.cons_append]
      rw [matchLitCI] at h ⊢
      by_cases hc : lowerChar c = q
      · rw [if_pos hc] at h ⊢
        exact ih cs t h
      · rw [if_neg hc] at h
        simp at h

theorem cutLit_prefixOf (lit : List Char) : ∀ s, PrefixOf (cutLit lit s) s := by
  intro s
  induction s with
  | nil => exact prefixOf_refl []
  | cons c cs ih =>
    rw [cutLit]
    by_cases h : (matchLitCI lit (c :: cs)).isSome
    · rw [if_pos h]; exact ⟨c :: cs, rfl⟩
    · rw [if_neg h]
      obtain ⟨t, ht⟩ := ih
      exact ⟨t, by rw [List.cons_append, ht]⟩

theorem cutLit_cutLit (lit : List Char) : ∀ s, cutLit lit (cutLit lit s) = cutLit lit s := by
  intro s
  induction s with
  | nil => rfl
  | cons c cs ih =>
    rw [cutLit]
    by_cases h : (matchLitCI lit (c :: cs)).isSome
    · rw [if_pos h]; rfl
    · rw [if_neg h]
      have h2 : ¬ (matchLitCI lit (c :: cutLit lit cs)).isSome = true := by
        intro habs
        obtain ⟨t, ht⟩ := cutLit_prefixOf lit cs
        have := matchLitCI_isSome_append lit (c :: cutLit lit cs) t habs
        rw [List.cons_append, ht] at this
        exact h this
      rw [cutLit, if_neg h2, ih]

theorem cutLit_of_prefixOf (lit : List Char) :
    ∀ s' s, cutLit lit s = s → PrefixOf s' s → cutLit lit s' = s' := by
  intro s'
  induction s' with
  | nil => intro s _ _; rfl
  | cons c cs' ih =>
    intro s hs hpre
    obtain ⟨t, rfl⟩ := hpre
    rw [List.cons_append] at hs
    rw [cutLit] at hs
    by_cases hm : (matchLitCI lit (c :: (cs' ++ t))).isSome
    · rw [if_pos hm] at hs
      exact absurd hs.symm (List.cons_ne_nil _ _)
    · rw [if_neg hm] at hs
      have htail : cutLit lit (cs' ++ t) = cs' ++ t := (List.cons_inj_right c).mp hs
      have hm' : ¬ (matchLitCI lit (c :: cs')).isSome = true := by
        intro habs
        have := matchLitCI_isSome_append lit (c :: cs') t habs
        rw [List.cons_append] at this
        exact hm this
      rw [cutLit, if_neg hm', ih (cs' ++ t) htail ⟨t, rfl⟩]

theorem applyCuts_prefixOf : ∀ (ls : List (List Char)) (s : List Char),
    PrefixOf (applyCuts ls s) s := by
  intro ls
  induction ls with
  | nil => intro s; exact prefixOf_refl s
  | cons l ls ih =>
    intro s
    rw [applyCuts]
    exact prefixOf_trans (ih (cutLit l s)) (cutLit_prefixOf l s)

theorem applyCuts_fixes : ∀ (ls : List (List Char)) (s : List Char),
    ∀ l ∈ ls, cutLit l (applyCuts ls s) = applyCuts ls s := by
  intro ls
  induction ls with
  | nil => intro s l hl; simp at hl
  | cons l0 ls ih =>
    intro s l hl
    rw [applyCuts]
    rcases List.mem_cons.mp hl with rfl | hl2
    · exact cutLit_of_prefixOf l (applyCuts ls (cutLit l s)) (cutLit l s)
        (cutLit_cutLit l s) (applyCuts_prefixOf ls (cutLit l s))
    · exact ih (cutLit l0 s) l hl2

theorem applyCuts_of_fixed : ∀ (ls : List (List Char)) (s : List Char),
    (∀ l ∈ ls, cutLit l s = s) → applyCuts ls s = s := by
  intro ls
  induction ls with
  | nil => intro s _; rfl
  | cons l0 ls ih =>
    intro s h
    rw [applyCuts, h l0 (List.mem_cons_self ..)]
    exact ih s (fun l hl => h l (List.mem_cons_of_mem _ hl))

theorem rstripNl_prefixOf (s : List Char) : PrefixOf (rstripNl s) s := by
  refine ⟨(s.reverse.takeWhile (fun c => c = '\n')).reverse, ?_⟩
  rw [rstripNl, ← List.reverse_append, List.takeWhile_append_dropWhile, List.reverse_reverse]

theorem dropWhile_dropWhile (p : Char → Bool) : ∀ l : List Char,
    List.dropWhile p (List.dropWhile p l) = List.dropWhile p l := by
  intro l
  induction l with
  | nil => rfl
  | cons c cs ih =>
    rw [List.dropWhile_cons]
    by_cases h : p c
    · rw [if_pos h]; exact ih
    · rw [if_neg h, List.dropWhile_cons, if_neg h]

theorem rstripNl_rstripNl (s : List Char) : rstripNl (rstripNl s) = rstripNl s := by
  rw [rstripNl, rstripNl, List.reverse_reverse, dropWhile_dropWhile]

/-- C8: `remove_explanations_from_analysis` is idempotent: the eight removals
leave no occurrence of their headings behind, later removals and the trailing
newline strip only shorten the text, and stripping is itself idempotent. -/
theorem c8_strip_idempotent (s : List Char) :
    remove_explanations_from_analysis (remove_explanations_from_analysis s)
      = remove_explanations_from_analysis s := by
  rw [remove_explanations_from_analysis, remove_explanations_from_analysis]
  have hfix : ∀ l ∈ explanationLits,
      cutLit l (rstripNl (applyCuts explanationLits s))
        = rstripNl (applyCuts explanationLits s) := by
    intro l hl
    exact cutLit_of_prefixOf l _ _ (applyCuts_fixes explanationLits s l hl)
      (rstripNl_prefixOf _)
  rw [applyCuts_of_fixed explanationLits _ hfix, rstripNl_rstripNl]

/-- C2 counterexample: two consecutive direct `/addphoto` flows on the same
day, entirely through public handlers, store two breakfast entries for the
same user and day: the slot invariant is not preserved. -/
theorem c2_counterexample :
    c2Step1.1 = .saved ∧ c2Step2.1 = .saved ∧
    mealSlotCount 0 c2Step2.2.2 7 "meal_breakfast" = 2 := by
  decide

/-- C2 (amended): slot uniqueness for breakfast/lunch/dinner is enforced only
at menu-build time — `handle_add_dish` omits slots already logged today and
always offers snack — while the insert itself is unguarded: a successful
logging-mode analysis always appends a meal row for the session slot
(defaulting to breakfast), regardless of what is already stored. -/
theorem c2_slot_enforcement (now today : Int) (db : DB) (tid : Int)
    (hacc : (check_subscription_access now (some db) tid).1.has_access = true)
    (ud : UserData) (A : List Char)
    (hphoto : ud.waiting_for_photo = true)
    (hmode : ud.check_mode = false)
    (hvalid : is_valid_analysis A = true)
    (c : Nat)
    (hcal : extract_calories_from_analysis (remove_explanations_from_analysis A) = some c) :
    (∃ slots, handle_add_dish now today (some db) tid = .menu slots ∧
      ("meal_breakfast" ∈ slots ↔ is_meal_already_added today db tid "meal_breakfast" = false) ∧
      ("meal_lunch" ∈ slots ↔ is_meal_already_added today db tid "meal_lunch" = false) ∧
      ("meal_dinner" ∈ slots ↔ is_meal_already_added today db tid "meal_dinner" = false) ∧
      "meal_snack" ∈ slots) ∧
    (∃ dish, (handle_photo today ud db tid (some A)).2.2.meals
      = db.meals ++ [⟨tid, ud.selected_meal.getD "meal_breakfast",
          ud.selected_meal_name.getD "Прием пищи", dish, c, "photo", today⟩]) := by
  constructor
  · rw [handle_add_dish]
    rw [hacc]
    cases hb : is_meal_already_added today db tid "meal_breakfast" <;>
      cases hl : is_meal_already_added today db tid "meal_lunch" <;>
      cases hd : is_meal_already_added today db tid "meal_dinner" <;>
      exact ⟨_, rfl, by simp, by simp, by simp, by simp⟩
  · refine ⟨(match extract_dish_name_from_analysis (remove_explanations_from_analysis A) with
      | some d => if d.isEmpty then "Блюдо по фото".data else d
      | none => "Блюдо по фото".data), ?_⟩
    rw [handle_photo]
    rw [hphoto, hmode]
    simp [hvalid, hcal, add_meal]

/-- Witness for C2 (amended) at a concrete state: the unguarded insert. -/
theorem c2_slot_enforcement_witness :
    ∃ dish, (handle_photo 0 (addphoto_command true freshUD) dbTrialNow 7
        (some analysisBorsch)).2.2.meals
      = dbTrialNow.meals ++ [⟨7, "meal_breakfast", "Прием пищи", dish, 250, "photo", 0⟩] :=
  (c2_slot_enforcement 0 0 dbTrialNow 7 (by decide) (addphoto_command true freshUD)
    analysisBorsch (by decide) (by decide) (by decide) 250 (by decide)).2

/-- C9: a logging-mode analysis reached via the direct commands (`/addphoto`,
`/addtext`, `/addvoice`), with no slot ever selected in the session, is saved
with the default slot `meal_breakfast` and the default display name, not
rejected. -/
theorem c9_default_slot (today : Int) (db : DB) (tid : Int) :
    (handle_photo today (addphoto_command true freshUD) db tid (some analysisBorsch)).1
      = .saved ∧
    (handle_photo today (addphoto_command true freshUD) db tid (some analysisBorsch)).2.2.meals
      = db.meals ++ [⟨tid, "meal_breakfast", "Прием пищи", "Борщ".data, 250, "photo", today⟩] ∧
    (handle_food_text_analysis today (addtext_command true freshUD) db tid "еда".data
        (some analysisBorsch)).1 = .saved ∧
    (handle_food_text_analysis today (addtext_command true freshUD) db tid "еда".data
        (some analysisBorsch)).2.2.meals
      = db.meals ++ [⟨tid, "meal_breakfast", "Прием пищи", "Борщ".data, 250, "text", today⟩] ∧
    (handle_voice today (addvoice_command true freshUD) db tid (some "еда".data)
        (some analysisBorsch)).1 = .saved ∧
    (handle_voice today (addvoice_command true freshUD) db tid (some "еда".data)
        (some analysisBorsch)).2.2.meals
      = db.meals ++ [⟨tid, "meal_breakfast", "Прием пищи", "Борщ".data, 250, "voice", today⟩] := by
  exact ⟨rfl, rfl, rfl, rfl, rfl, rfl⟩

theorem lowerChar_digit (c : Char) (hc : isDigitCh c = true) : lowerChar c = c := by
  simp only [isDigitCh, Bool.or_eq_true, decide_eq_true_eq] at hc
  rcases hc with ⟨⟨⟨⟨⟨⟨⟨⟨rfl | rfl⟩ | rfl⟩ | rfl⟩ | rfl⟩ | rfl⟩ | rfl⟩ | rfl⟩ | rfl⟩ | rfl <;> decide

theorem isWS_digit (c : Char) (hc : isDigitCh c = true) : isWS c = false := by
  simp only [isDigitCh, Bool.or_eq_true, decide_eq_true_eq] at hc
  rcases hc with ⟨⟨⟨⟨⟨⟨⟨⟨rfl | rfl⟩ | rfl⟩ | rfl⟩ | rfl⟩ | rfl⟩ | rfl⟩ | rfl⟩ | rfl⟩ | rfl <;> decide

theorem matchAtP_cons_none (p : CalPat) (c : Char) (cs : List Char)
    (h : canStart p c = false) : matchAtP p (c :: cs) = none := by
  cases hl : p.lit with
  | nil =>
    simp only [canStart, hl] at h
    simp [matchAtP, hl, matchLitCI, List.takeWhile_cons, h]
  | cons q qs =>
    simp only [canStart, hl, beq_eq_false_iff_ne, ne_eq] at h
    simp [matchAtP, hl, matchLitCI, h]

theorem searchPat_cons_none (p : CalPat) (c : Char) (cs : List Char)
    (h : matchAtP p (c :: cs) = none) : searchPat p (c :: cs) = searchPat p cs := by
  simp only [searchPat, h]

theorem searchPat_cons_some (p : CalPat) (c : Char) (cs : List Char) (n : Nat)
    (h : matchAtP p (c :: cs) = some n) : searchPat p (c :: cs) = some n := by
  simp only [searchPat, h]

theorem searchPat_skip (p : CalPat) (l r : List Char)
    (h : ∀ c ∈ l, canStart p c = false) : searchPat p (l ++ r) = searchPat p r := by
  induction l with
  | nil => rfl
  | cons c l2 ih =>
    rw [List.cons_append,
      searchPat_cons_none p c (l2 ++ r) (matchAtP_cons_none p c _ (h c (List.mem_cons_self ..)))]
    exact ih (fun x hx => h x (List.mem_cons_of_mem _ hx))

theorem canStart_digit (p : CalPat) (q : Char) (qs : List Char)
    (hl : p.lit = q :: qs) (hq : isDigitCh q = false)
    (c : Char) (hc : isDigitCh c = true) : canStart p c = false := by
  simp only [canStart, hl, lowerChar_digit c hc]
  by_cases he : c = q
  · subst he; rw [hc] at hq; cases hq
  · exact beq_eq_false_iff_ne.mpr he

theorem takeWhile_middle (p : Char → Bool) (l : List Char) (x : Char) (r : List Char)
    (hl : ∀ c ∈ l, p c = true) (hx : p x = false) :
    List.takeWhile p (l ++ x :: r) = l := by
  induction l with
  | nil => simp [List.takeWhile_cons, hx]
  | cons c l2 ih =>
    rw [List.cons_append, List.takeWhile_cons, hl c (List.mem_cons_self ..)]
    simp [ih (fun y hy => hl y (List.mem_cons_of_mem _ hy))]

theorem dropWhile_middle (p : Char → Bool) (l : List Char) (x : Char) (r : List Char)
    (hl : ∀ c ∈ l, p c = true) (hx : p x = false) :
    List.dropWhile p (l ++ x :: r) = x :: r := by
  induction l with
  | nil => simp [List.dropWhile_cons, hx]
  | cons c l2 ih =>
    rw [List.cons_append, List.dropWhile_cons, hl c (List.mem_cons_self ..)]
    simp [ih (fun y hy => hl y (List.mem_cons_of_mem _ hy))]

theorem matchAtP_after_lit (p : CalPat) (s ds ex : List Char)
    (hlitne : p.lit ≠ [])
    (hm : matchLitCI p.lit s = some (' ' :: (ds ++ (' ' :: ("ккал".data ++ ex)))))
    (hne : ds ≠ []) (hdig : ∀ c ∈ ds, isDigitCh c = true)
    (hanch : p.eolAnchor = true → anchorOk ex = true) :
    matchAtP p s = some (digitsVal ds) := by
  obtain ⟨d, ds2, rfl⟩ := List.exists_cons_of_ne_nil hne
  have hle : p.lit.isEmpty = false := by
    cases hl : p.lit with
    | nil => exact absurd hl hlitne
    | cons a l => rfl
  have hwd : isWS d = false := isWS_digit d (hdig d (List.mem_cons_self ..))
  have hdrop1 :
      List.dropWhile isWS (' ' :: ((d :: ds2) ++ (' ' :: ("ккал".data ++ ex))))
        = (d :: ds2) ++ (' ' :: ("ккал".data ++ ex)) := by
    rw [List.dropWhile_cons]
    simp only [show isWS ' ' = true from rfl, if_true]
    rw [List.cons_append, List.dropWhile_cons, hwd]
    simp
  have htake :
      List.takeWhile isDigitCh ((d :: ds2) ++ (' ' :: ("ккал".data ++ ex))) = d :: ds2 :=
    takeWhile_middle isDigitCh (d :: ds2) ' ' _ hdig (by decide)
  have hdrop2 :
      List.dropWhile isDigitCh ((d :: ds2) ++ (' ' :: ("ккал".data ++ ex)))
        = ' ' :: ("ккал".data ++ ex) :=
    dropWhile_middle isDigitCh (d :: ds2) ' ' _ hdig (by decide)
  have hdrop3 :
      List.dropWhile isWS (' ' :: ("ккал".data ++ ex)) = "ккал".data ++ ex := by
    rw [List.dropWhile_cons]
    simp only [show isWS ' ' = true from rfl, if_true]
    rfl
  have hunit : matchLitCI "ккал".data ("ккал".data ++ ex) = some ex := rfl
  simp only [matchAtP, hm, hle, Bool.false_eq_true, if_false, hdrop1, htake, hdrop2,
    hdrop3, hunit, List.isEmpty_cons]
  cases hua : p.unitAfter with
  | false => simp
  | true =>
    cases hea : p.eolAnchor with
    | false => simp
    | true => simp [hanch hea]

theorem matchAtP_bare (p : CalPat) (ds ex : List Char)
    (hlit : p.lit = [])
    (hne : ds ≠ []) (hdig : ∀ c ∈ ds, isDigitCh c = true)
    (hanch : p.eolAnchor = true → anchorOk ex = true) :
    matchAtP p (ds ++ (' ' :: ("ккал".data ++ ex))) = some (digitsVal ds) := by
  obtain ⟨d, ds2, rfl⟩ := List.exists_cons_of_ne_nil hne
  have htake :
      List.takeWhile isDigitCh ((d :: ds2) ++ (' ' :: ("ккал".data ++ ex))) = d :: ds2 :=
    takeWhile_middle isDigitCh (d :: ds2) ' ' _ hdig (by decide)
  have hdrop2 :
      List.dropWhile isDigitCh ((d :: ds2) ++ (' ' :: ("ккал".data ++ ex)))
        = ' ' :: ("ккал".data ++ ex) :=
    dropWhile_middle isDigitCh (d :: ds2) ' ' _ hdig (by decide)
  have hdrop3 :
      List.dropWhile isWS (' ' :: ("ккал".data ++ ex)) = "ккал".data ++ ex := by
    rw [List.dropWhile_cons]
    simp only [show isWS ' ' = true from rfl, if_true]
    rfl
  have hunit : matchLitCI "ккал".data ("ккал".data ++ ex) = some ex := rfl
  simp only [matchAtP, hlit, matchLitCI, List.isEmpty_nil, if_true, htake, hdrop2,
    hdrop3, hunit, List.isEmpty_cons]
  cases hua : p.unitAfter with
  | false => simp
  | true =>
    cases hea : p.eolAnchor with
    | false => simp
    | true => simp [hanch hea]

theorem tC5_search_p1 (ds : List Char) (hne : ds ≠ [])
    (hdig : ∀ c ∈ ds, isDigitCh c = true) :
    searchPat ⟨"общая калорийность:".data, true, false⟩ (tC5 ds)
      = some (digitsVal ds) := by
  have hm : matchLitCI "общая калорийность:".data (tC5 ds)
      = some (' ' :: (ds ++ (' ' :: ("ккал".data ++ [])))) := rfl
  have hmat := matchAtP_after_lit ⟨"общая калорийность:".data, true, false⟩ (tC5 ds)
    ds [] (by decide) hm hne hdig (fun _ => by decide)
  rw [show tC5 ds = 'О' :: ("бщая калорийность: ".data ++ (ds ++ " ккал".data)) from rfl]
  exact searchPat_cons_some _ _ _ _ hmat

theorem tC5_search_obshchee (ds : List Char)
    (hdig : ∀ c ∈ ds, isDigitCh c = true) :
    searchPat ⟨"общее количество калорий:".data, true, false⟩ (tC5 ds) = none := by
  rw [show tC5 ds = 'О' :: ("бщая кал".data ++ ('о' :: ("рийн".data ++
    ('о' :: ("сть: ".data ++ (ds ++ " ккал".data)))))) from rfl]
  rw [searchPat_cons_none _ _ _ (by rfl)]
  rw [searchPat_skip _ "бщая кал".data _ (by decide)]
  rw [searchPat_cons_none _ _ _ (by rfl)]
  rw [searchPat_skip _ "рийн".data _ (by decide)]
  rw [searchPat_cons_none _ _ _ (by rfl)]
  rw [searchPat_skip _ "сть: ".data _ (by decide)]
  rw [searchPat_skip _ ds _
    (fun c hc => canStart_digit _ 'о' _ rfl (by decide) c (hdig c hc))]
  decide

theorem tC5_search_blyuda (ds : List Char)
    (hdig : ∀ c ∈ ds, isDigitCh c = true) :
    searchPat ⟨"калорийность блюда:".data, true, false⟩ (tC5 ds) = none := by
  rw [show tC5 ds = "Общая ".data ++ ('к' :: ("алорийность: ".data ++
    (ds ++ " ккал".data))) from rfl]
  rw [searchPat_skip _ "Общая ".data _ (by decide)]
  rw [searchPat_cons_none _ _ _ (by rfl)]
  rw [searchPat_skip _ "алорийность: ".data _ (by decide)]
  rw [searchPat_skip _ ds _
    (fun c hc => canStart_digit _ 'к' _ rfl (by decide) c (hdig c hc))]
  decide

theorem tC5_search_kalorij (ds : List Char)
    (hdig : ∀ c ∈ ds, isDigitCh c = true) :
    searchPat ⟨"калорий:".data, false, false⟩ (tC5 ds) = none := by
  rw [show tC5 ds = "Общая ".data ++ ('к' :: ("алорийность: ".data ++
    (ds ++ " ккал".data))) from rfl]
  rw [searchPat_skip _ "Общая ".data _ (by decide)]
  rw [searchPat_cons_none _ _ _ (by rfl)]
  rw [searchPat_skip _ "алорийность: ".data _ (by decide)]
  rw [searchPat_skip _ ds _
    (fun c hc => canStart_digit _ 'к' _ rfl (by decide) c (hdig c hc))]
  decide

theorem tC5_search_kal (ua anch : Bool) (ds : List Char) (hne : ds ≠ [])
    (hdig : ∀ c ∈ ds, isDigitCh c = true) :
    searchPat ⟨"калорийность:".data, ua, anch⟩ (tC5 ds) = some (digitsVal ds) := by
  have hm : matchLitCI "калорийность:".data
      ("калорийность: ".data ++ (ds ++ " ккал".data))
      = some (' ' :: (ds ++ (' ' :: ("ккал".data ++ [])))) := rfl
  have hmat := matchAtP_after_lit ⟨"калорийность:".data, ua, anch⟩
    ("калорийность: ".data ++ (ds ++ " ккал".data)) ds [] (List.cons_ne_nil _ _) hm hne hdig
    (fun _ => by decide)
  rw [show tC5 ds = "Общая ".data ++ ('к' :: ("алорийность: ".data ++
    (ds ++ " ккал".data))) from rfl]
  rw [searchPat_skip _ "Общая ".data _ (by intro c hc; fin_cases hc <;> rfl)]
  exact searchPat_cons_some _ _ _ _ hmat

theorem tC5_search_bare (anch : Bool) (ds : List Char) (hne : ds ≠ [])
    (hdig : ∀ c ∈ ds, isDigitCh c = true) :
    searchPat ⟨[], true, anch⟩ (tC5 ds) = some (digitsVal ds) := by
  have hmat := matchAtP_bare ⟨[], true, anch⟩ ds [] rfl hne hdig (fun _ => by decide)
  rw [show tC5 ds = "Общая калорийность: ".data ++ (ds ++ " ккал".data) from rfl]
  rw [searchPat_skip _ "Общая калорийность: ".data _ (by intro c hc; fin_cases hc <;> rfl)]
  obtain ⟨d, ds2, rfl⟩ := List.exists_cons_of_ne_nil hne
  rw [List.cons_append]
  exact searchPat_cons_some _ _ _ _ hmat

theorem firstAccept_range (ps : List CalPat) (s : List Char) (n : Nat)
    (h : firstAccept ps s = some n) : 10 ≤ n ∧ n ≤ 10000 := by
  induction ps with
  | nil => simp [firstAccept] at h
  | cons p ps ih =>
    rw [firstAccept] at h
    cases hs : searchPat p s with
    | some m =>
      rw [hs] at h
      have h2 : (if rangeOK m = true then some m else firstAccept ps s) = some n := h
      by_cases hr : rangeOK m = true
      · rw [if_pos hr] at h2
        injection h2 with h3
        subst h3
        rw [rangeOK] at hr
        simp only [Bool.and_eq_true, decide_eq_true_eq] at hr
        exact hr
      · rw [if_neg hr] at h2
        exact ih h2
    | none =>
      rw [hs] at h
      exact ih h

theorem extract_calories_range (s : List Char) (n : Nat)
    (h : extract_calories_from_analysis s = some n) : 10 ≤ n ∧ n ≤ 10000 := by
  rw [extract_calories_from_analysis] at h
  cases hp : firstAccept primaryPatterns s with
  | some m =>
    rw [hp] at h
    have h2 : some m = some n := h
    injection h2 with h3
    subst h3
    exact firstAccept_range _ _ _ hp
  | none =>
    rw [hp] at h
    have h2 : firstAccept fallbackPatterns s = some n := h
    exact firstAccept_range _ _ _ h2

/-- C5: on the total-dish phrase around an arbitrary captured digit run,
`extract_calories_from_analysis` returns exactly the captured number when it
lies in [10, 10000]; when it lies outside (so no pattern yields an in-range
number on this text) the result is none; and on every input whatsoever the
result, when present, lies in [10, 10000]. -/
theorem c5_extract_range (ds : List Char) (hne : ds ≠ [])
    (hdig : ∀ c ∈ ds, isDigitCh c = true) :
    (10 ≤ digitsVal ds ∧ digitsVal ds ≤ 10000 →
      extract_calories_from_analysis (tC5 ds) = some (digitsVal ds)) ∧
    ((digitsVal ds < 10 ∨ 10000 < digitsVal ds) →
      extract_calories_from_analysis (tC5 ds) = none) ∧
    (∀ s n, extract_calories_from_analysis s = some n → 10 ≤ n ∧ n ≤ 10000) := by
  refine ⟨?_, ?_, fun s n h => extract_calories_range s n h⟩
  · intro h
    have hr : rangeOK (digitsVal ds) = true := by
      rw [rangeOK]; simp only [Bool.and_eq_true, decide_eq_true_eq]; exact h
    simp [extract_calories_from_analysis, primaryPatterns, firstAccept,
      tC5_search_p1 ds hne hdig, hr]
  · intro h
    have hr : rangeOK (digitsVal ds) = false := by
      cases hb : rangeOK (digitsVal ds)
      · rfl
      · exfalso
        rw [rangeOK] at hb
        simp only [Bool.and_eq_true, decide_eq_true_eq] at hb
        omega
    simp [extract_calories_from_analysis, primaryPatterns, fallbackPatterns, firstAccept,
      tC5_search_p1 ds hne hdig, tC5_search_obshchee ds hdig, tC5_search_blyuda ds hdig,
      tC5_search_kal true true ds hne hdig, tC5_search_kal false false ds hne hdig,
      tC5_search_bare true ds hne hdig, tC5_search_bare false ds hne hdig,
      tC5_search_kalorij ds hdig, hr]

/-- Witness for C5: 250 is returned exactly; 25000 is rejected as not-found. -/
theorem c5_extract_range_witness :
    extract_calories_from_analysis (tC5 ['2', '5', '0']) = some (digitsVal ['2', '5', '0']) ∧
    extract_calories_from_analysis (tC5 ['2', '5', '0', '0', '0']) = none :=
  ⟨(c5_extract_range ['2', '5', '0'] (by decide) (by decide)).1 (by decide),
   (c5_extract_range ['2', '5', '0', '0', '0'] (by decide) (by decide)).2.1 (by decide)⟩

/-- C6: when a labeled total-dish phrase (with an in-range number) and a bare
trailing number with the calorie unit are both present, the total-dish value
wins: the labeled pattern comes earlier in the ordered cascade. -/
theorem c6_total_precedence (ds1 ds2 : List Char)
    (h1 : ds1 ≠ []) (hd1 : ∀ c ∈ ds1, isDigitCh c = true)
    (h2 : ds2 ≠ []) (hd2 : ∀ c ∈ ds2, isDigitCh c = true)
    (hr1 : 10 ≤ digitsVal ds1 ∧ digitsVal ds1 ≤ 10000)
    (hr2 : 10 ≤ digitsVal ds2 ∧ digitsVal ds2 ≤ 10000) :
    extract_calories_from_analysis (tC6 ds1 ds2) = some (digitsVal ds1) := by
  have hm : matchLitCI "общая калорийность:".data (tC6 ds1 ds2)
      = some (' ' :: (ds1 ++ (' ' :: ("ккал".data ++
        ('\n' :: (ds2 ++ " ккал".data)))))) := rfl
  have hmat := matchAtP_after_lit ⟨"общая калорийность:".data, true, false⟩ (tC6 ds1 ds2)
    ds1 ('\n' :: (ds2 ++ " ккал".data)) (List.cons_ne_nil _ _) hm h1 hd1
    (fun hh => absurd hh (by decide))
  have e1 : searchPat ⟨"общая калорийность:".data, true, false⟩ (tC6 ds1 ds2)
      = some (digitsVal ds1) := by
    rw [show tC6 ds1 ds2 = 'О' :: ("бщая калорийность: ".data ++ (ds1 ++
      (" ккал\n".data ++ (ds2 ++ " ккал".data)))) from rfl]
    exact searchPat_cons_some _ _ _ _ hmat
  have hr : rangeOK (digitsVal ds1) = true := by
    rw [rangeOK]; simp only [Bool.and_eq_true, decide_eq_true_eq]; exact hr1
  simp [extract_calories_from_analysis, primaryPatterns, firstAccept, e1, hr]

/-- Witness for C6: 250 beats the bare trailing 120. -/
theorem c6_total_precedence_witness :
    extract_calories_from_analysis (tC6 ['2', '5', '0'] ['1', '2', '0'])
      = some (digitsVal ['2', '5', '0']) :=
  c6_total_precedence ['2', '5', '0'] ['1', '2', '0'] (by decide) (by decide) (by decide)
    (by decide) (by decide) (by decide)
